import Mathlib

/-!
Verification of the XtreemFS client RPC reliability core.

This file gives a shallow embedding of two source units and proves the
specification claims about them:

1. cpp/include/libxtreemfs/callback/execute_sync_request.h —
   the synchronous retry engine ExecuteSyncRequest.  The engine is embedded
   as a fuel-indexed interpreter.  External inputs (the response returned by
   each invocation of the attempt function, the wall clock observed at the
   start of each attempt and at each polling step of the inter-attempt wait,
   and the arrival of the interruption signal) are supplied by an
   environment record.  The thread-local interruption flag (intr_pointer)
   is threaded explicitly as state: the flag is set when a signal arrival is
   observed at a read point and cleared exactly where the source clears it.
   Logging and the persistent error log are side effects with no influence
   on control flow or results and are not modelled.

2. client/src/org/xtreemfs/client/dir_proxy.cpp —
   DIRProxy::getURIFromUUID and DIRProxy::getVolumeURIFromVolumeName.
   The cache is a function from UUID strings to optional entries; the
   outcome of the non-blocking lock acquisition, the current time, and the
   directory-service answers are supplied by an environment record.
   Thrown YIELD exceptions are embedded as an error result carrying the
   exception message.
-/

namespace Xtreemfs

/-- Error categories of a failed RPC response (xtreemfs::pbrpc::ErrorType).
The protobuf enum is generated code outside the two source files; the
categories the engine distinguishes are ERRNO, IO_ERROR,
INTERNAL_SERVER_ERROR and REDIRECT, and every other value falls into the
default branch of the classification switch.  The OTHER constructor carries
the name string that the protobuf enum-descriptor lookup produces for such
a value (or its decimal spelling when the descriptor has no entry). -/
inductive ErrorType where
  | ERRNO
  | IO_ERROR
  | INTERNAL_SERVER_ERROR
  | REDIRECT
  | OTHER (type_name : String)
deriving DecidableEq, Repr

/-- Fields of xtreemfs::pbrpc::RPCHeader::ErrorResponse read by the engine.
posix_errno_name models the protobuf POSIXErrno descriptor lookup
FindValueByNumber(posix_errno): some name when the descriptor knows the
value, none otherwise.  redirect_to_server_uuid is none when
has_redirect_to_server_uuid() is false. -/
structure ErrorResponse where
  error_type : ErrorType
  error_message : String
  posix_errno : Int
  posix_errno_name : Option String
  redirect_to_server_uuid : Option String
deriving DecidableEq, Repr

/-- A response returned by one invocation of the attempt function
(sync_function): either successful or failed with an ErrorResponse,
mirroring HasFailed() and error(). -/
inductive RPCResponse where
  | ok
  | failed (err : ErrorResponse)
deriving DecidableEq, Repr

/-- HasFailed() of a response. -/
def RPCResponse.hasFailed : RPCResponse → Bool
  | .ok => false
  | .failed _ => true

/-- The exceptions thrown by ExecuteSyncRequest, with the constructor
arguments the source passes (execute_sync_request.h lines 189, 198, 207,
217, 234, 239). -/
inductive XtreemFSThrow where
  | PosixErrorException (posix_errno : Int) (message : String)
  | IOException (message : String)
  | InternalServerErrorException (message : String)
  | ReplicationRedirectionException (redirect_to_server_uuid : String)
  | XtreemFSException (message : String)
deriving DecidableEq, Repr

/-- The POSIX EINTR error number of the target platform (errno.h). -/
def EINTR : Int := 4

/-- The posix_errono_string built at lines 173-180: the descriptor name of
the errno value when available, otherwise its decimal spelling
(boost::lexical_cast). -/
def posixErrnoString (e : ErrorResponse) : String :=
  match e.posix_errno_name with
  | some n => n
  | none => toString e.posix_errno

/-- The redirect target used at lines 153-156: the UUID when present,
otherwise the empty string. -/
def redirectUUID (e : ErrorResponse) : String :=
  match e.redirect_to_server_uuid with
  | some u => u
  | none => ""

/-- The classification switch of ExecuteSyncRequest (lines 166-236): maps
the error_type of a terminal failed response to the exception thrown for
it, with the exact message strings the source builds. -/
def classifyThrow (e : ErrorResponse) : XtreemFSThrow :=
  match e.error_type with
  | .ERRNO =>
      .PosixErrorException e.posix_errno
        ("The server denied the requested operation. Error Value: "
          ++ posixErrnoString e ++ " Error message: " ++ e.error_message)
  | .IO_ERROR => .IOException e.error_message
  | .INTERNAL_SERVER_ERROR => .InternalServerErrorException e.error_message
  | .REDIRECT => .ReplicationRedirectionException (redirectUUID e)
  | .OTHER type_name =>
      .XtreemFSException ("The server returned an error: " ++ type_name
        ++ " Error Message: " ++ e.error_message)

/-- The fields of Options consumed by ExecuteSyncRequest: the minimum
spacing between attempts in seconds and whether an interrupt signal is
configured (the source stores a signal number and tests its truthiness;
only set / not set matters to the control flow). -/
structure Options where
  retry_delay_s : Int
  interrupt_signal : Bool

/-- External inputs of one call to ExecuteSyncRequest.
response k is the response returned by the k-th invocation of
sync_function (k counted from 1).  startTime k is the value of time(NULL)
recorded as request_sent at the start of attempt k; pollTime k i is the
value of time(NULL) read at the i-th polling step (i counted from 0) of
the inter-attempt wait following attempt k.  arrive n tells whether the
interrupt signal has been delivered (setting intr_pointer) by the time of
the n-th read of intr_pointer, n counting all reads of the call.  initFlag
is the stale value of the thread-local intr_pointer left by a previous
call; it is observable only when no interrupt signal is configured, since
otherwise the source clears the flag on entry. -/
structure Env where
  response : Nat → RPCResponse
  startTime : Nat → Int
  pollTime : Nat → Nat → Int
  arrive : Nat → Bool
  initFlag : Bool

/-- Interpreter state: the current value of the thread-local interruption
flag intr_pointer, and the number of reads of the flag performed so far
(the index into Env.arrive for the next read). -/
structure MState where
  flag : Bool
  reads : Nat
deriving DecidableEq, Repr

/-- One read of intr_pointer: the flag is seen set if it was already set or
the signal has arrived by this read event.  Returns the observed value and
the state after the read. -/
def readFlag (env : Env) (s : MState) : Bool × MState :=
  let f := s.flag || env.arrive s.reads
  (f, ⟨f, s.reads + 1⟩)

/-- The remaining-delay computation of lines 100-102:
max(0, retry_delay_s - (time(NULL) - request_sent)). -/
def delayTimeLeft (retry_delay_s request_sent now : Int) : Int :=
  max 0 (retry_delay_s - (now - request_sent))

/-- The inter-attempt wait loop of lines 93-107, polling after attempt k
whose request_sent time is given.  Each iteration first checks the
interruption flag (only when an interrupt signal is configured), then
computes the remaining delay from the current clock and sleeps 100 ms when
it is positive.  Returns none when the fuel is exhausted while the loop is
still polling, otherwise some (interrupted, state, i) where i is the index
of the poll at which the loop stopped (equivalently the number of
iterations that slept before stopping, when not interrupted). -/
def waitLoop (env : Env) (opts : Options) (request_sent : Int) (k : Nat) :
    Nat → Nat → MState → Option (Bool × MState × Nat)
  | 0, _, _ => none
  | fuel + 1, i, s =>
    let r := if opts.interrupt_signal then readFlag env s else (false, s)
    if r.1 then some (true, r.2, i)
    else
      let left := delayTimeLeft opts.retry_delay_s request_sent (env.pollTime k i)
      if 0 < left then waitLoop env opts request_sent k fuel (i + 1) r.2
      else some (false, r.2, i)

/-- The retry loop of ExecuteSyncRequest (lines 62-135).  Arguments after
wfuel (the fuel given to each inter-attempt wait): remaining loop fuel, the
attempt counter so far, the interrupted local, the interpreter state and
the current contents of the response variable (none models NULL, otherwise
the index of the attempt that produced the response and the response).
Result: the final attempt counter (number of invocations of sync_function
performed) paired with none when fuel ran out while the source loop would
still be running, or some of the response variable at loop exit. -/
def execLoop (env : Env) (opts : Options) (max_tries : Int)
    (delay_last_attempt : Bool) (wfuel : Nat) :
    Nat → Nat → Bool → MState → Option (Nat × RPCResponse) →
    Nat × Option (Option (Nat × RPCResponse))
  | 0, attempt, _, _, _ => (attempt, none)
  | fuel + 1, attempt, interrupted, s, response =>
    if ((attempt : Int) + 1 ≤ max_tries ∨ max_tries = 0) ∧ interrupted = false then
      match env.response (attempt + 1) with
      | .failed err =>
        if err.error_type = ErrorType.IO_ERROR
            ∧ ((attempt : Int) + 1 < max_tries ∨ max_tries = 0
               ∨ ((attempt : Int) + 1 = max_tries ∧ delay_last_attempt = true)) then
          match waitLoop env opts (env.startTime (attempt + 1)) (attempt + 1)
              wfuel 0 s with
          | none => (attempt + 1, none)
          | some (intr, s1, _) =>
            let r := if opts.interrupt_signal then readFlag env s1 else (false, s1)
            if r.1 then (attempt + 1, some none)
            else
              execLoop env opts max_tries delay_last_attempt wfuel fuel
                (attempt + 1) intr r.2 (some (attempt + 1, .failed err))
        else (attempt + 1, some (some (attempt + 1, .failed err)))
      | .ok =>
        let r := if opts.interrupt_signal then readFlag env s else (false, s)
        if r.1 then (attempt + 1, some none)
        else (attempt + 1, some (some (attempt + 1, .ok)))
    else (attempt, some response)

/-- Outcome of a call: the index of the attempt whose successful response
was returned, or the exception thrown. -/
inductive ExecOutcome where
  | success (attempt : Nat)
  | failure (f : XtreemFSThrow)
deriving DecidableEq, Repr

/-- The terminal handling after the loop (lines 142-240): a successful
response is returned, a failed response is classified and thrown, and a
NULL response (interrupted, or the loop never ran) throws
PosixErrorException(EINTR, ...). -/
def execFinish : Option (Nat × RPCResponse) → ExecOutcome
  | some (k, .ok) => .success k
  | some (_, .failed e) => .failure (classifyThrow e)
  | none => .failure (.PosixErrorException EINTR "The operation was aborted by the user.")

/-- The full ExecuteSyncRequest: when an interrupt signal is configured the
interruption flag is cleared on entry (line 56), otherwise the stale
thread-local value remains.  Returns the number of attempts performed and,
when the loop exited within the given fuel, the outcome. -/
def ExecuteSyncRequest (env : Env) (opts : Options) (max_tries : Int)
    (delay_last_attempt : Bool) (fuel wfuel : Nat) : Nat × Option ExecOutcome :=
  let s0 : MState := ⟨if opts.interrupt_signal then false else env.initFlag, 0⟩
  let r := execLoop env opts max_tries delay_last_attempt wfuel fuel 0 false s0 none
  (r.1, r.2.map execFinish)

/-- One address mapping returned by the directory service
(org::xtreemfs::interfaces::AddressMapping), with the fields
getURIFromUUID reads. -/
structure AddressMapping where
  uuid : String
  protocol : String
  address : String
  port : Nat
  ttl_s : Int
deriving DecidableEq, Repr

/-- Modelled from the spec: the class CachedAddressMappingURI is declared in
dir_proxy.h, which is not among the source files; per the spec a cache
entry wraps the resolved endpoint string plus creation_time set to the
wall clock at insertion and ttl_s copied from the source AddressMapping.
The field names follow the accessors the source calls
(get_creation_epoch_time_s, get_ttl_s). -/
structure CachedAddressMappingURI where
  uri : String
  creation_epoch_time_s : Int
  ttl_s : Int
deriving DecidableEq, Repr

/-- One service returned by xtreemfs_service_get_by_name, with its
ServiceDataMap (role name to value) in iteration order. -/
structure Service where
  data : List (String × String)
deriving DecidableEq, Repr

/-- External inputs of a DIRProxy call: the outcome of the non-blocking
try_acquire on the cache lock, the current time
(YIELD::Time::getCurrentUnixTimeS), and the directory-service answers for
address-mapping and service-by-name queries. -/
structure DirEnv where
  lockAcquired : Bool
  now : Int
  addressMappings : String → List AddressMapping
  servicesByName : String → List Service

/-- The uuid_to_uri_cache: UUID to cached entry. -/
abbrev Cache := String → Option CachedAddressMappingURI

/-- Insertion uuid_to_uri_cache[uuid] = uri (overwrites any present entry). -/
def cacheInsert (c : Cache) (uuid : String) (e : CachedAddressMappingURI) :
    Cache :=
  fun k => if k = uuid then some e else c k

/-- Eviction uuid_to_uri_cache.erase(...). -/
def cacheErase (c : Cache) (uuid : String) : Cache :=
  fun k => if k = uuid then none else c k

/-- The endpoint string built at dir_proxy.cpp lines 62-63:
protocol://address:port. -/
def addressMappingURIString (am : AddressMapping) : String :=
  am.protocol ++ "://" ++ am.address ++ ":" ++ toString am.port

/-- Result of a DIRProxy resolution: the returned URI string, or the
message of the thrown YIELD::Exception. -/
inductive DirResult where
  | uri (u : String)
  | exn (message : String)
deriving DecidableEq, Repr

/-- DIRProxy::getURIFromUUID (dir_proxy.cpp lines 32-72).  The first phase
is the cache read under the non-blocking lock: it yields the cached URI on
a fresh hit and otherwise the cache after a possible eviction of an
expired entry.  The second phase, reached when the first returned nothing,
queries the directory service, fails when no mapping exists, and otherwise
builds the URI from the first mapping and inserts a new entry.  Returns
the result together with the cache after the call. -/
def getURIFromUUID (env : DirEnv) (cache : Cache) (uuid : String) :
    DirResult × Cache :=
  let step1 : Option String × Cache :=
    if env.lockAcquired then
      match cache uuid with
      | some uri =>
        if env.now - uri.creation_epoch_time_s < uri.ttl_s then
          (some uri.uri, cache)
        else
          (none, cacheErase cache uuid)
      | none => (none, cache)
    else (none, cache)
  match step1 with
  | (some u, c) => (.uri u, c)
  | (none, c) =>
    match env.addressMappings uuid with
    | [] => (.exn "could not find address mapping for UUID", c)
    | am :: _ =>
      let u := addressMappingURIString am
      (.uri u, cacheInsert c uuid ⟨u, env.now, am.ttl_s⟩)

/-- The inner loop of getVolumeURIFromVolumeName over one ServiceDataMap:
the value of the first entry whose key is "mrc". -/
def findMrcInData : List (String × String) → Option String
  | [] => none
  | p :: rest => if p.1 = "mrc" then some p.2 else findMrcInData rest

/-- The outer loop of getVolumeURIFromVolumeName: the first "mrc" value
across the returned services, in order. -/
def findMrcUUID : List Service → Option String
  | [] => none
  | s :: rest =>
    match findMrcInData s.data with
    | some u => some u
    | none => findMrcUUID rest

/-- DIRProxy::getVolumeURIFromVolumeName (dir_proxy.cpp lines 74-94):
throws "unknown volume" when the directory service returns no services for
the name or none of them carries an "mrc" role entry, and otherwise
resolves the UUID found under the first "mrc" entry via getURIFromUUID. -/
def getVolumeURIFromVolumeName (env : DirEnv) (cache : Cache)
    (volume_name : String) : DirResult × Cache :=
  let services := env.servicesByName volume_name
  if services.isEmpty then (.exn "unknown volume", cache)
  else
    match findMrcUUID services with
    | some uuid => getURIFromUUID env cache uuid
    | none => (.exn "unknown volume", cache)

/-- An environment whose every attempt returns the same response, with a
constant clock and no interruption. -/
def constEnv (r : RPCResponse) : Env :=
  ⟨fun _ => r, fun _ => 0, fun _ _ => 0, fun _ => false, false⟩

lemma execLoop_succ (env : Env) (opts : Options) (max_tries : Int)
    (delay_last_attempt : Bool) (wfuel fuel attempt : Nat) (interrupted : Bool)
    (s : MState) (response : Option (Nat × RPCResponse)) :
    execLoop env opts max_tries delay_last_attempt wfuel (fuel + 1) attempt
        interrupted s response
      = if ((attempt : Int) + 1 ≤ max_tries ∨ max_tries = 0) ∧ interrupted = false then
          match env.response (attempt + 1) with
          | .failed err =>
            if err.error_type = ErrorType.IO_ERROR
                ∧ ((attempt : Int) + 1 < max_tries ∨ max_tries = 0
                   ∨ ((attempt : Int) + 1 = max_tries ∧ delay_last_attempt = true)) then
              match waitLoop env opts (env.startTime (attempt + 1)) (attempt + 1)
                  wfuel 0 s with
              | none => (attempt + 1, none)
              | some (intr, s1, _) =>
                let r := if opts.interrupt_signal then readFlag env s1 else (false, s1)
                if r.1 then (attempt + 1, some none)
                else
                  execLoop env opts max_tries delay_last_attempt wfuel fuel
                    (attempt + 1) intr r.2 (some (attempt + 1, .failed err))
            else (attempt + 1, some (some (attempt + 1, .failed err)))
          | .ok =>
            let r := if opts.interrupt_signal then readFlag env s else (false, s)
            if r.1 then (attempt + 1, some none)
            else (attempt + 1, some (some (attempt + 1, .ok)))
        else (attempt, some response) := by
  rfl

/-- With max_tries = 1 the loop guard fails as soon as the counter passes 1,
whatever the state, so a resumption from attempt 1 performs no further
attempt. -/
lemma execLoop_mt_one_exit (env : Env) (opts : Options) (dl : Bool)
    (wfuel fuel : Nat) (intr : Bool) (s : MState)
    (r : Option (Nat × RPCResponse)) :
    (execLoop env opts 1 dl wfuel fuel 1 intr s r).1 = 1 := by
  cases fuel with
  | zero => rfl
  | succ fuel =>
    rw [execLoop_succ]
    rw [if_neg]
    rintro ⟨h | h, -⟩ <;> omega

/-- Claim C2: for every error type, both values of delay_last_attempt, and
every sequence of responses (any environment), ExecuteSyncRequest with
max_tries = 1 invokes the attempt function exactly once and never performs
a second attempt, provided at least one loop iteration of fuel is
available. -/
theorem C2_max_tries_one_single_attempt (env : Env) (opts : Options)
    (dl : Bool) (fuel wfuel : Nat) (hfuel : 1 ≤ fuel) :
    (ExecuteSyncRequest env opts 1 dl fuel wfuel).1 = 1 := by
  obtain ⟨f, rfl⟩ : ∃ f, fuel = f + 1 := ⟨fuel - 1, by omega⟩
  unfold ExecuteSyncRequest
  dsimp only
  rw [execLoop_succ, if_pos (by norm_num)]
  cases henv : env.response (0 + 1) with
  | ok =>
    dsimp only
    split
    · split <;> rfl
    · rfl
  | failed err =>
    dsimp only
    split
    · cases hw : waitLoop env opts (env.startTime (0 + 1)) (0 + 1) wfuel 0
          (⟨if opts.interrupt_signal then false else env.initFlag, 0⟩ : MState) with
      | none => rfl
      | some t =>
        obtain ⟨intr, s1, i⟩ := t
        dsimp only
        split
        · split
          · rfl
          · exact execLoop_mt_one_exit env opts dl wfuel f intr _ _
        · exact execLoop_mt_one_exit env opts dl wfuel f intr _ _
    · rfl

/-- A closed instance of claim C2: a run on a concrete environment whose
single allowed attempt fails with an IO error and whose
delay_last_attempt flag is set. -/
theorem C2_max_tries_one_single_attempt_witness :
    (ExecuteSyncRequest (constEnv (.failed ⟨.IO_ERROR, "m", 0, none, none⟩))
        ⟨1, false⟩ 1 true 3 2).1 = 1 :=
  C2_max_tries_one_single_attempt
    (constEnv (.failed ⟨.IO_ERROR, "m", 0, none, none⟩)) ⟨1, false⟩ true 3 2
    (by decide)

/-- Claim C10: for every negative max_tries, ExecuteSyncRequest never
invokes the attempt function (the attempt count of the result is 0) and
throws the same PosixErrorException(EINTR, "The operation was aborted by
the user.") used for interruption, although no cancellation was
requested. -/
theorem C10_negative_max_tries_zero_attempts (env : Env) (opts : Options)
    (dl : Bool) (fuel wfuel : Nat) (mt : Int) (hmt : mt < 0)
    (hfuel : 1 ≤ fuel) :
    ExecuteSyncRequest env opts mt dl fuel wfuel
      = (0, some (.failure (.PosixErrorException EINTR
          "The operation was aborted by the user."))) := by
  obtain ⟨f, rfl⟩ : ∃ f, fuel = f + 1 := ⟨fuel - 1, by omega⟩
  unfold ExecuteSyncRequest
  dsimp only
  rw [execLoop_succ, if_neg (by rintro ⟨h | h, -⟩ <;> omega)]
  rfl

/-- A closed instance of claim C10: max_tries = -1 yields zero attempts and
the EINTR failure even though the environment would answer successfully. -/
theorem C10_negative_max_tries_zero_attempts_witness :
    ExecuteSyncRequest (constEnv .ok) ⟨1, false⟩ (-1) false 4 2
      = (0, some (.failure (.PosixErrorException EINTR
          "The operation was aborted by the user."))) :=
  C10_negative_max_tries_zero_attempts (constEnv .ok) ⟨1, false⟩ false 4 2
    (-1) (by decide) (by decide)

/-- Claim C5: every terminal failed response is classified per the table:
ERRNO (PosixError) yields PosixErrorException carrying the errno and a
message built from the errno name (or its decimal spelling when the
descriptor lookup fails) and the server message; IO_ERROR yields
IOException carrying the server message; INTERNAL_SERVER_ERROR yields
InternalServerErrorException carrying the server message; REDIRECT yields
ReplicationRedirectionException carrying the redirect target UUID (the
empty string when absent); every other error_type yields XtreemFSException
carrying the type name and the server message.  The last conjunct ties the
table to the engine: a terminal failed response always surfaces as the
typed exception classifyThrow assigns to it, never untyped. -/
theorem C5_classification_table :
    ∀ (m : String) (n : Int) (nm : String) (ru : Option String)
      (tn u : String) (d : Int),
    (classifyThrow ⟨.ERRNO, m, n, some nm, ru⟩
      = .PosixErrorException n
          ("The server denied the requested operation. Error Value: "
            ++ nm ++ " Error message: " ++ m)) ∧
    (classifyThrow ⟨.ERRNO, m, n, none, ru⟩
      = .PosixErrorException n
          ("The server denied the requested operation. Error Value: "
            ++ toString n ++ " Error message: " ++ m)) ∧
    (classifyThrow ⟨.IO_ERROR, m, n, some nm, ru⟩ = .IOException m) ∧
    (classifyThrow ⟨.INTERNAL_SERVER_ERROR, m, n, some nm, ru⟩
      = .InternalServerErrorException m) ∧
    (classifyThrow ⟨.REDIRECT, m, n, some nm, some u⟩
      = .ReplicationRedirectionException u) ∧
    (classifyThrow ⟨.REDIRECT, m, n, some nm, none⟩
      = .ReplicationRedirectionException "") ∧
    (classifyThrow ⟨.OTHER tn, m, n, some nm, ru⟩
      = .XtreemFSException ("The server returned an error: " ++ tn
          ++ " Error Message: " ++ m)) ∧
    (∀ e : ErrorResponse,
      ExecuteSyncRequest (constEnv (.failed e)) ⟨d, false⟩ 1 false 1 1
        = (1, some (.failure (classifyThrow e)))) := by
  intro m n nm ru tn u d
  refine ⟨rfl, rfl, rfl, rfl, rfl, rfl, rfl, ?_⟩
  intro e
  obtain ⟨t, em, en, enm, eru⟩ := e
  cases t <;> rfl

lemma ite_pair_fst {α : Type} (c : Prop) [Decidable c] (a : Nat) (x y : α) :
    (if c then (a, x) else (a, y)).1 = a := by
  split <;> rfl

/-- If the loop reaches attempt k and the k-th response is a failure whose
error_type is not IO_ERROR, the loop breaks at attempt k with that
response still held: no wait and no further attempt happens, whatever the
remaining budget. -/
lemma execLoop_reaches_non_io (env : Env) (opts : Options) (mt : Int)
    (dl : Bool) (wfuel : Nat) (k : Nat) (err : ErrorResponse)
    (hresp : env.response k = .failed err)
    (hty : err.error_type ≠ ErrorType.IO_ERROR) :
    ∀ (fuel attempt : Nat) (intr : Bool) (s : MState)
      (r : Option (Nat × RPCResponse)),
      attempt < k →
      k ≤ (execLoop env opts mt dl wfuel fuel attempt intr s r).1 →
      execLoop env opts mt dl wfuel fuel attempt intr s r
        = (k, some (some (k, RPCResponse.failed err))) := by
  intro fuel
  induction fuel with
  | zero =>
    intro attempt intr s r hlt hge
    simp only [execLoop] at hge
    omega
  | succ fuel ih =>
    intro attempt intr s r hlt hge
    rw [execLoop_succ] at hge ⊢
    by_cases hc : ((attempt : Int) + 1 ≤ mt ∨ mt = 0) ∧ intr = false
    · rw [if_pos hc] at hge ⊢
      by_cases hk : attempt + 1 = k
      · rw [hk, hresp]
        dsimp only
        rw [if_neg (fun h => hty h.1)]
      · cases henv : env.response (attempt + 1) with
        | ok =>
          rw [henv] at hge
          dsimp only at hge
          rw [ite_pair_fst] at hge
          omega
        | failed e2 =>
          rw [henv] at hge
          dsimp only at hge ⊢
          by_cases hr : e2.error_type = ErrorType.IO_ERROR
              ∧ ((attempt : Int) + 1 < mt ∨ mt = 0
                 ∨ ((attempt : Int) + 1 = mt ∧ dl = true))
          · rw [if_pos hr] at hge ⊢
            cases hw : waitLoop env opts (env.startTime (attempt + 1))
                (attempt + 1) wfuel 0 s with
            | none =>
              rw [hw] at hge
              dsimp only at hge
              omega
            | some t =>
              obtain ⟨intr2, s2, i2⟩ := t
              rw [hw] at hge
              dsimp only at hge ⊢
              by_cases hflag :
                  (if opts.interrupt_signal then readFlag env s2
                    else (false, s2)).1 = true
              · rw [if_pos hflag] at hge
                dsimp only at hge
                omega
              · rw [if_neg hflag] at hge ⊢
                exact ih (attempt + 1) intr2 _ _ (by omega) hge
          · rw [if_neg hr] at hge
            dsimp only at hge
            omega
    · rw [if_neg hc] at hge
      dsimp only at hge
      omega

/-- Claim C1: for every attempt function (environment) and options, if the
response of an attempt the engine reaches fails with an error_type other
than IO_ERROR, ExecuteSyncRequest performs no further attempt — the total
attempt count equals that attempt's index, regardless of how many tries
remain in the budget — and surfaces the typed failure classifyThrow
assigns to that response. -/
theorem C1_nonIO_failure_stops (env : Env) (opts : Options) (mt : Int)
    (dl : Bool) (fuel wfuel : Nat) (k : Nat) (err : ErrorResponse)
    (hresp : env.response k = .failed err)
    (hty : err.error_type ≠ ErrorType.IO_ERROR)
    (hk : 1 ≤ k)
    (hreach : k ≤ (ExecuteSyncRequest env opts mt dl fuel wfuel).1) :
    ExecuteSyncRequest env opts mt dl fuel wfuel
      = (k, some (.failure (classifyThrow err))) := by
  unfold ExecuteSyncRequest at hreach ⊢
  dsimp only at hreach ⊢
  rw [execLoop_reaches_non_io env opts mt dl wfuel k err hresp hty fuel 0 false
    _ none (by omega) hreach]
  rfl

/-- An environment whose first attempt fails with an IO error (retried) and
whose second attempt fails with a redirect. -/
def redirectAtTwoEnv : Env :=
  ⟨fun j => if j = 2 then .failed ⟨.REDIRECT, "m", 0, none, some "mrc-uuid"⟩
     else .failed ⟨.IO_ERROR, "m", 0, none, none⟩,
   fun _ => 0, fun _ _ => 0, fun _ => false, false⟩

/-- A closed instance of claim C1: five tries are budgeted, attempt 1 fails
with an IO error and is retried, attempt 2 fails with a redirect, and the
engine stops at 2 attempts with the typed redirect failure. -/
theorem C1_nonIO_failure_stops_witness :
    ExecuteSyncRequest redirectAtTwoEnv ⟨0, false⟩ 5 false 5 1
      = (2, some (.failure (.ReplicationRedirectionException "mrc-uuid"))) := by
  have h := C1_nonIO_failure_stops redirectAtTwoEnv ⟨0, false⟩ 5 false 5 1 2
    ⟨.REDIRECT, "m", 0, none, some "mrc-uuid"⟩ (by rfl) (by decide) (by decide)
    (by decide)
  rw [h]
  rfl

/-- When the interrupt signal never arrives, any read of the flag from a
cleared state observes false and leaves the flag cleared. -/
lemma noArrivalRead (env : Env) (opts : Options) (m : Nat)
    (harr : ∀ j, env.arrive j = false) :
    ∃ m2, (if opts.interrupt_signal then readFlag env ⟨false, m⟩
            else (false, ⟨false, m⟩)) = (false, (⟨false, m2⟩ : MState)) := by
  cases hsig : opts.interrupt_signal with
  | false => exact ⟨m, by simp [hsig]⟩
  | true => exact ⟨m + 1, by simp [hsig, readFlag, harr]⟩

/-- When no signal arrives and the clock at the current poll already passed
the retry deadline, the wait loop stops at this poll without sleeping
further, uninterrupted, within a single unit of fuel. -/
lemma waitLoop_immediate (env : Env) (opts : Options) (rs : Int) (k i m : Nat)
    (harr : ∀ j, env.arrive j = false)
    (hle : opts.retry_delay_s - (env.pollTime k i - rs) ≤ 0) :
    ∃ m2, waitLoop env opts rs k 1 i ⟨false, m⟩
      = some (false, (⟨false, m2⟩ : MState), i) := by
  obtain ⟨m2, hr⟩ := noArrivalRead env opts m harr
  refine ⟨m2, ?_⟩
  simp only [waitLoop]
  rw [hr]
  dsimp only
  rw [if_neg (by simp)]
  have hz : delayTimeLeft opts.retry_delay_s rs (env.pollTime k i) = 0 :=
    max_eq_left hle
  rw [hz]
  rw [if_neg (lt_irrefl 0)]

/-- With max_tries = 0, responses that always fail with IO_ERROR, no signal
arrival, and attempts that consume the full retry interval, every unit of
fuel performs one more attempt and the loop never exits. -/
lemma execLoop_unbounded_io (env : Env) (opts : Options) (dl : Bool)
    (hresp : ∀ j, 1 ≤ j → ∃ e, env.response j = RPCResponse.failed e
       ∧ e.error_type = ErrorType.IO_ERROR)
    (harr : ∀ j, env.arrive j = false)
    (htime : ∀ j, opts.retry_delay_s ≤ env.pollTime j 0 - env.startTime j) :
    ∀ (fuel attempt m : Nat) (r : Option (Nat × RPCResponse)),
      execLoop env opts 0 dl 1 fuel attempt false ⟨false, m⟩ r
        = (attempt + fuel, none) := by
  intro fuel
  induction fuel with
  | zero => intro attempt m r; rfl
  | succ fuel ih =>
    intro attempt m r
    rw [execLoop_succ, if_pos ⟨Or.inr rfl, rfl⟩]
    obtain ⟨e, he, het⟩ := hresp (attempt + 1) (by omega)
    rw [he]
    dsimp only
    rw [if_pos ⟨het, Or.inr (Or.inl rfl)⟩]
    obtain ⟨m2, hw⟩ := waitLoop_immediate env opts (env.startTime (attempt + 1))
      (attempt + 1) 0 m harr (by have := htime (attempt + 1); omega)
    rw [hw]
    dsimp only
    obtain ⟨m3, hpost⟩ := noArrivalRead env opts m2 harr
    rw [hpost]
    dsimp only
    rw [ih (attempt + 1) m3 _]
    have : attempt + 1 + fuel = attempt + (fuel + 1) := by omega
    rw [this, if_neg (by simp)]

/-- Claim C3: with max_tries = 0, for every n, if every attempt fails with
an IO error and no cancellation is ever observed (no signal arrival, clean
initial flag), then after n + 1 units of loop fuel the engine has issued
exactly n + 1 attempts and has not stopped: under persistent IO errors with
no success and no cancellation, attempt n + 1 is always issued, for every
n.  The clock hypothesis says each attempt consumed at least the retry
interval, modelling the passage of real time. -/
theorem C3_unbounded_retry_on_io (n : Nat) (env : Env) (opts : Options)
    (dl : Bool)
    (hresp : ∀ j, 1 ≤ j → ∃ e, env.response j = RPCResponse.failed e
       ∧ e.error_type = ErrorType.IO_ERROR)
    (harr : ∀ j, env.arrive j = false)
    (hinit : env.initFlag = false)
    (htime : ∀ j, opts.retry_delay_s ≤ env.pollTime j 0 - env.startTime j) :
    ExecuteSyncRequest env opts 0 dl (n + 1) 1 = (n + 1, none) := by
  unfold ExecuteSyncRequest
  dsimp only
  have hs0 : (if opts.interrupt_signal then false else env.initFlag) = false := by
    rw [hinit]
    simp
  rw [hs0, execLoop_unbounded_io env opts dl hresp harr htime (n + 1) 0 0 none]
  simp

/-- An environment whose every attempt fails with an IO error, with a
constant clock and no interruption. -/
def ioAlwaysEnv : Env :=
  ⟨fun _ => .failed ⟨.IO_ERROR, "m", 0, none, none⟩, fun _ => 0, fun _ _ => 0,
   fun _ => false, false⟩

/-- A closed instance of claim C3: with max_tries = 0 and persistent IO
errors, 3 units of fuel give 3 attempts and no termination. -/
theorem C3_unbounded_retry_on_io_witness :
    ExecuteSyncRequest ioAlwaysEnv ⟨0, false⟩ 0 false 3 1 = (3, none) :=
  C3_unbounded_retry_on_io 2 ioAlwaysEnv ⟨0, false⟩ false
    (fun j hj => ⟨⟨.IO_ERROR, "m", 0, none, none⟩, rfl, rfl⟩)
    (fun j => rfl) rfl (fun j => by show (0 : Int) ≤ 0 - 0; norm_num)

/-- With max_tries = 0, an interrupt signal configured, responses that
always fail with IO_ERROR, attempts consuming the full retry interval, and
the signal arriving exactly at the flag read performed during the wait
following attempt k0 + 1 (global read index 2 * k0, since every earlier
attempt performs one wait read and one post-attempt read), the loop runs
attempts 1 .. k0 + 1, observes the interruption during that wait, discards
the response and exits with the response variable NULL. -/
lemma execLoop_cancelled_during_wait (env : Env) (opts : Options) (dl : Bool)
    (k0 : Nat)
    (hsig : opts.interrupt_signal = true)
    (hresp : ∀ j, 1 ≤ j → ∃ e, env.response j = RPCResponse.failed e
       ∧ e.error_type = ErrorType.IO_ERROR)
    (harr : ∀ m, env.arrive m = decide (m = 2 * k0))
    (htime : ∀ j, opts.retry_delay_s ≤ env.pollTime j 0 - env.startTime j) :
    ∀ (fuel j m : Nat) (r : Option (Nat × RPCResponse)),
      j ≤ k0 → k0 - j < fuel → m = 2 * j →
      execLoop env opts 0 dl 1 fuel j false ⟨false, m⟩ r
        = (k0 + 1, some none) := by
  intro fuel
  induction fuel with
  | zero => intro j m r hj hf hm; omega
  | succ fuel ih =>
    intro j m r hj hf hm
    subst hm
    rw [execLoop_succ, if_pos ⟨Or.inr rfl, rfl⟩]
    obtain ⟨e, he, het⟩ := hresp (j + 1) (by omega)
    rw [he]
    dsimp only
    rw [if_pos ⟨het, Or.inr (Or.inl rfl)⟩]
    by_cases hk : j = k0
    · have harr1 : env.arrive (2 * j) = true := by
        rw [harr, hk]
        simp
      have hw : waitLoop env opts (env.startTime (j + 1)) (j + 1) 1 0
          ⟨false, 2 * j⟩ = some (true, ⟨true, 2 * j + 1⟩, 0) := by
        simp only [waitLoop, hsig, if_pos rfl, readFlag, harr1]
        simp
      rw [hw]
      dsimp only
      have hpost : ((if opts.interrupt_signal then readFlag env ⟨true, 2 * j + 1⟩
          else (false, ⟨true, 2 * j + 1⟩)) : Bool × MState).1 = true := by
        rw [hsig]
        simp [readFlag]
      rw [if_pos hpost, hk]
    · have hjk : j < k0 := by omega
      have harr1 : env.arrive (2 * j) = false := by
        rw [harr]
        simp only [decide_eq_false_iff_not]
        omega
      have hz : delayTimeLeft opts.retry_delay_s (env.startTime (j + 1))
          (env.pollTime (j + 1) 0) = 0 :=
        max_eq_left (by have := htime (j + 1); omega)
      have hw : waitLoop env opts (env.startTime (j + 1)) (j + 1) 1 0
          ⟨false, 2 * j⟩ = some (false, ⟨false, 2 * j + 1⟩, 0) := by
        simp [waitLoop, hsig, readFlag, harr1, hz]
      rw [hw]
      dsimp only
      have harr2 : env.arrive (2 * j + 1) = false := by
        rw [harr]
        simp only [decide_eq_false_iff_not]
        omega
      have hpost : (if opts.interrupt_signal then readFlag env ⟨false, 2 * j + 1⟩
          else (false, ⟨false, 2 * j + 1⟩)) = (false, ⟨false, 2 * j + 2⟩) := by
        rw [hsig]
        simp [readFlag, harr2]
      rw [hpost]
      dsimp only
      rw [if_neg (by simp)]
      rw [ih (j + 1) (2 * j + 2) _ (by omega) (by omega) (by omega)]

/-- Claim C4: if cancellation is requested while the engine is waiting out
the inter-attempt delay after attempt k0 + 1 (with every attempt failing
with a retryable IO error), the engine issues no further attempt — the
attempt count stays k0 + 1 — discards the current response (the response
variable is NULL at exit) and throws PosixErrorException(EINTR, "The
operation was aborted by the user."), the cancellation failure, since no
response ever succeeded. -/
theorem C4_cancel_during_delay_no_further_attempt (k0 : Nat) (env : Env)
    (opts : Options) (dl : Bool) (fuel : Nat)
    (hsig : opts.interrupt_signal = true)
    (hresp : ∀ j, 1 ≤ j → ∃ e, env.response j = RPCResponse.failed e
       ∧ e.error_type = ErrorType.IO_ERROR)
    (harr : ∀ m, env.arrive m = decide (m = 2 * k0))
    (htime : ∀ j, opts.retry_delay_s ≤ env.pollTime j 0 - env.startTime j)
    (hfuel : k0 < fuel) :
    ExecuteSyncRequest env opts 0 dl fuel 1
      = (k0 + 1, some (.failure (.PosixErrorException EINTR
          "The operation was aborted by the user."))) := by
  unfold ExecuteSyncRequest
  dsimp only
  have hs0 : (if opts.interrupt_signal then false else env.initFlag) = false := by
    rw [hsig]
    simp
  rw [hs0]
  rw [execLoop_cancelled_during_wait env opts dl k0 hsig hresp harr htime fuel
    0 0 none (by omega) (by omega) (by omega)]
  rfl

/-- An environment whose every attempt fails with an IO error and where the
interrupt signal arrives at global flag-read index 2, the read performed
during the wait following attempt 2. -/
def cancelAtTwoEnv : Env :=
  ⟨fun _ => .failed ⟨.IO_ERROR, "m", 0, none, none⟩, fun _ => 0, fun _ _ => 0,
   fun m => decide (m = 2), false⟩

/-- A closed instance of claim C4: the signal arrives during the wait after
attempt 2; the engine stops at 2 attempts with the EINTR cancellation
failure. -/
theorem C4_cancel_during_delay_no_further_attempt_witness :
    ExecuteSyncRequest cancelAtTwoEnv ⟨0, true⟩ 0 false 5 1
      = (2, some (.failure (.PosixErrorException EINTR
          "The operation was aborted by the user."))) :=
  C4_cancel_during_delay_no_further_attempt 1 cancelAtTwoEnv ⟨0, true⟩ false 5
    rfl (fun j hj => ⟨⟨.IO_ERROR, "m", 0, none, none⟩, rfl, rfl⟩)
    (fun m => rfl) (fun j => by show (0 : Int) ≤ 0 - 0; norm_num) (by omega)

/-- With no signal arrival, the wait loop started at poll i stops at the
first poll index i0 at which the remaining delay is zero, sleeping at every
poll before it. -/
lemma waitLoop_first_zero (env : Env) (opts : Options) (rs : Int)
    (k i0 : Nat) (harr : ∀ m, env.arrive m = false) :
    ∀ (fuel i : Nat) (s : MState), s.flag = false →
      i ≤ i0 → i0 - i < fuel →
      (∀ j, i ≤ j → j < i0 →
        0 < delayTimeLeft opts.retry_delay_s rs (env.pollTime k j)) →
      delayTimeLeft opts.retry_delay_s rs (env.pollTime k i0) = 0 →
      ∃ s2, waitLoop env opts rs k fuel i s = some (false, s2, i0) := by
  intro fuel
  induction fuel with
  | zero => intro i s hs hi hf hpos hz; omega
  | succ fuel ih =>
    intro i s hs hi hf hpos hz
    obtain ⟨f0, m0⟩ := s
    have hf0 : f0 = false := hs
    subst hf0
    obtain ⟨m2, hr⟩ := noArrivalRead env opts m0 harr
    simp only [waitLoop]
    rw [hr]
    dsimp only
    rw [if_neg (by simp)]
    by_cases hii : i = i0
    · subst hii
      rw [hz, if_neg (lt_irrefl 0)]
      exact ⟨⟨false, m2⟩, rfl⟩
    · have hlt : i < i0 := by omega
      rw [if_pos (hpos i le_rfl hlt)]
      exact ih (i + 1) ⟨false, m2⟩ rfl (by omega) (by omega)
        (fun j hj1 hj2 => hpos j (by omega) hj2) hz

/-- Claim C9: the engine computes the remaining inter-attempt delay as
max(0, retry_delay_s - (now - request_sent)) — the definition
delayTimeLeft, taken verbatim from the source — and keeps sleeping in
100 ms slices exactly while that remainder is positive: with no
cancellation observed, the wait following an attempt whose request_sent
time is rs ends at the first poll i0 at which the remainder has reached
zero, having slept i0 times.  When the attempt itself consumed the whole
interval the remainder at poll 0 is already zero (i0 = 0) and no sleep
happens: retry_delay_s is a floor on the spacing between attempt starts,
clamped to at least 0, not a fixed sleep appended to each attempt. -/
theorem C9_wait_only_remainder (env : Env) (opts : Options) (rs : Int)
    (k i0 fuel : Nat) (s : MState)
    (harr : ∀ m, env.arrive m = false)
    (hflag : s.flag = false)
    (hfuel : i0 < fuel)
    (hpos : ∀ j, j < i0 →
      0 < delayTimeLeft opts.retry_delay_s rs (env.pollTime k j))
    (hz : delayTimeLeft opts.retry_delay_s rs (env.pollTime k i0) = 0) :
    ∃ s2, waitLoop env opts rs k fuel 0 s = some (false, s2, i0) :=
  waitLoop_first_zero env opts rs k i0 harr fuel 0 s hflag (by omega)
    (by omega) (fun j h1 h2 => hpos j h2) hz

/-- An environment whose clock advances two seconds per polling step of the
wait after each attempt. -/
def sleepClockEnv : Env :=
  ⟨fun _ => .ok, fun _ => 0, fun _ i => 2 * i, fun _ => false, false⟩

/-- A closed instance of claim C9: retry_delay_s = 5 and a clock gaining
2 s per poll make the wait sleep exactly 3 times, stopping at the first
poll where the remainder max(0, 5 - elapsed) is zero. -/
theorem C9_wait_only_remainder_witness :
    ∃ s2, waitLoop sleepClockEnv ⟨5, false⟩ 0 1 4 0 ⟨false, 0⟩
      = some (false, s2, 3) :=
  C9_wait_only_remainder sleepClockEnv ⟨5, false⟩ 0 1 3 4 ⟨false, 0⟩
    (fun m => rfl) rfl (by omega)
    (fun j hj => by interval_cases j <;> decide) (by decide)

/-- The outcome of a resolution performed purely against the directory
service — what the miss path of getURIFromUUID computes before caching:
the ResolutionError exception when no mapping exists, otherwise the
endpoint built from the first returned mapping. -/
def freshResolveResult (env : DirEnv) (uuid : String) : DirResult :=
  match env.addressMappings uuid with
  | [] => .exn "could not find address mapping for UUID"
  | am :: _ => .uri (addressMappingURIString am)

/-- Claim C6: an expired cache entry (now - creation_time >= ttl_s) is
never served: the call's result is exactly the fresh directory-service
resolution, independent of the stale entry; when the fresh query succeeds
the entry stored under the uuid afterwards is the fresh one, with creation
time now and the first mapping's ttl; and when the cache lock was acquired
the stale entry is evicted even if the fresh query comes back empty. -/
theorem C6_expired_entry_never_served (env : DirEnv) (cache : Cache)
    (uuid : String) (e : CachedAddressMappingURI)
    (hent : cache uuid = some e)
    (hstale : e.ttl_s ≤ env.now - e.creation_epoch_time_s) :
    (getURIFromUUID env cache uuid).1 = freshResolveResult env uuid ∧
    (∀ am rest, env.addressMappings uuid = am :: rest →
       (getURIFromUUID env cache uuid).2 uuid
         = some ⟨addressMappingURIString am, env.now, am.ttl_s⟩) ∧
    (env.lockAcquired = true → env.addressMappings uuid = [] →
       (getURIFromUUID env cache uuid).2 uuid = none) := by
  have hlt : ¬ (env.now - e.creation_epoch_time_s < e.ttl_s) := by omega
  by_cases hl : env.lockAcquired = true
  · cases ham : env.addressMappings uuid with
    | nil =>
      refine ⟨?_, ?_, ?_⟩
      · simp [getURIFromUUID, freshResolveResult, hl, hent, hlt, ham]
      · intro am rest ham2
        cases ham2
      · intro _ _
        simp [getURIFromUUID, hl, hent, hlt, ham, cacheErase]
    | cons am rest =>
      refine ⟨?_, ?_, ?_⟩
      · simp [getURIFromUUID, freshResolveResult, hl, hent, hlt, ham]
      · intro am2 rest2 ham2
        injection ham2 with h1 h2
        subst h1
        simp [getURIFromUUID, hl, hent, hlt, ham, cacheInsert]
      · intro _ hnil
        cases hnil
  · cases ham : env.addressMappings uuid with
    | nil =>
      refine ⟨?_, ?_, ?_⟩
      · simp [getURIFromUUID, freshResolveResult, hl, ham]
      · intro am rest ham2
        cases ham2
      · intro h _
        exact absurd h hl
    | cons am rest =>
      refine ⟨?_, ?_, ?_⟩
      · simp [getURIFromUUID, freshResolveResult, hl, ham]
      · intro am2 rest2 ham2
        injection ham2 with h1 h2
        subst h1
        simp [getURIFromUUID, hl, ham, cacheInsert]
      · intro h _
        exact absurd h hl

/-- The directory-service environment of the specification scenario: uuid
srv1 maps to the mapping (tcp, 10.0.0.5, 14, ttl 60), volume vol1 is owned
by a service whose data carries the mrc role under srv1, and the current
time is 100. -/
def dirScenarioEnv : DirEnv :=
  ⟨true, 100,
   fun u => if u = "srv1" then [⟨"srv1", "tcp", "10.0.0.5", 14, 60⟩] else [],
   fun n => if n = "vol1" then [⟨[("osd", "srvX"), ("mrc", "srv1")]⟩] else []⟩

/-- A cache holding an entry for srv1 created at time 30 with ttl 60 —
expired at time 100. -/
def staleSrvCache : Cache :=
  fun k => if k = "srv1" then some ⟨"tcp://cached:9", 30, 60⟩ else none

/-- A closed instance of claim C6: at time 100 the entry created at 30 with
ttl 60 is expired; the call answers from the directory service and the new
entry replaces the stale one with creation time 100. -/
theorem C6_expired_entry_never_served_witness :
    (getURIFromUUID dirScenarioEnv staleSrvCache "srv1").1
      = freshResolveResult dirScenarioEnv "srv1" ∧
    (getURIFromUUID dirScenarioEnv staleSrvCache "srv1").2 "srv1"
      = some ⟨"tcp://10.0.0.5:14", 100, 60⟩ := by
  have h := C6_expired_entry_never_served dirScenarioEnv staleSrvCache "srv1"
    ⟨"tcp://cached:9", 30, 60⟩ (by decide) (by decide)
  exact ⟨h.1, h.2.1 ⟨"srv1", "tcp", "10.0.0.5", 14, 60⟩ [] (by decide)⟩

/-- Claim C7: on a cache miss, the resolution queries the directory service
for the address mappings of the uuid; an empty result set fails with the
ResolutionError exception and leaves the cache unchanged; otherwise the
first mapping is selected, the endpoint string protocol://address:port
built from it is returned, and the entry inserted under the uuid carries
that endpoint, creation_time = now and the mapping's ttl_s. -/
theorem C7_cache_miss_resolution (env : DirEnv) (cache : Cache)
    (uuid : String) (hmiss : cache uuid = none) :
    (env.addressMappings uuid = [] →
       getURIFromUUID env cache uuid
         = (.exn "could not find address mapping for UUID", cache)) ∧
    (∀ am rest, env.addressMappings uuid = am :: rest →
       getURIFromUUID env cache uuid
         = (.uri (addressMappingURIString am),
            cacheInsert cache uuid
              ⟨addressMappingURIString am, env.now, am.ttl_s⟩)) := by
  by_cases hl : env.lockAcquired = true
  · refine ⟨fun ham => ?_, fun am rest ham => ?_⟩
    · simp [getURIFromUUID, hl, hmiss, ham]
    · simp [getURIFromUUID, hl, hmiss, ham]
  · refine ⟨fun ham => ?_, fun am rest ham => ?_⟩
    · simp [getURIFromUUID, hl, hmiss, ham]
    · simp [getURIFromUUID, hl, hmiss, ham]

/-- The everywhere-empty cache. -/
def emptyCache : Cache := fun _ => none

/-- A closed instance of claim C7, the specification scenario: resolving
srv1 against an empty cache returns tcp://10.0.0.5:14 and caches it with
creation time 100 and ttl 60. -/
theorem C7_cache_miss_resolution_witness :
    getURIFromUUID dirScenarioEnv emptyCache "srv1"
      = (.uri "tcp://10.0.0.5:14",
         cacheInsert emptyCache "srv1" ⟨"tcp://10.0.0.5:14", 100, 60⟩) := by
  have h := (C7_cache_miss_resolution dirScenarioEnv emptyCache "srv1"
    (by decide)).2 ⟨"srv1", "tcp", "10.0.0.5", 14, 60⟩ [] (by decide)
  rw [h]
  rfl

lemma findMrcInData_eq_none (l : List (String × String))
    (h : ∀ p ∈ l, p.1 ≠ "mrc") : findMrcInData l = none := by
  induction l with
  | nil => rfl
  | cons p rest ih =>
    rw [findMrcInData, if_neg (h p (by simp))]
    exact ih (fun q hq => h q (by simp [hq]))

lemma findMrcInData_first (dpre : List (String × String)) (u : String)
    (dpost : List (String × String)) (h : ∀ p ∈ dpre, p.1 ≠ "mrc") :
    findMrcInData (dpre ++ ("mrc", u) :: dpost) = some u := by
  induction dpre with
  | nil => rfl
  | cons p rest ih =>
    rw [List.cons_append, findMrcInData, if_neg (h p (by simp))]
    exact ih (fun q hq => h q (by simp [hq]))

lemma findMrcUUID_eq_none (ss : List Service)
    (h : ∀ t ∈ ss, ∀ p ∈ t.data, p.1 ≠ "mrc") : findMrcUUID ss = none := by
  induction ss with
  | nil => rfl
  | cons t rest ih =>
    rw [findMrcUUID, findMrcInData_eq_none t.data (h t (by simp))]
    exact ih (fun q hq => h q (by simp [hq]))

lemma findMrcUUID_first (pre : List Service) (t : Service)
    (post : List Service) (u : String)
    (hpre : ∀ q ∈ pre, ∀ p ∈ q.data, p.1 ≠ "mrc")
    (ht : findMrcInData t.data = some u) :
    findMrcUUID (pre ++ t :: post) = some u := by
  induction pre with
  | nil =>
    rw [List.nil_append, findMrcUUID, ht]
  | cons q rest ih =>
    rw [List.cons_append, findMrcUUID,
      findMrcInData_eq_none q.data (hpre q (by simp))]
    exact ih (fun q2 hq2 => hpre q2 (by simp [hq2]))

/-- Claim C8: resolving a volume name iterates the returned services in
order and, inside each service, its role map in order; the first entry
with key "mrc" wins and the call returns exactly what resolving its value
through getURIFromUUID returns; if the directory service returns no
services for the name, or no returned service carries an "mrc" entry, the
call fails with the UnknownVolumeError exception. -/
theorem C8_volume_resolution_first_mrc (env : DirEnv) (cache : Cache)
    (name : String) :
    (env.servicesByName name = [] →
       getVolumeURIFromVolumeName env cache name
         = (.exn "unknown volume", cache)) ∧
    ((∀ t ∈ env.servicesByName name, ∀ p ∈ t.data, p.1 ≠ "mrc") →
       getVolumeURIFromVolumeName env cache name
         = (.exn "unknown volume", cache)) ∧
    (∀ (pre : List Service) (t : Service) (post : List Service)
       (dpre : List (String × String)) (u : String)
       (dpost : List (String × String)),
       env.servicesByName name = pre ++ t :: post →
       (∀ q ∈ pre, ∀ p ∈ q.data, p.1 ≠ "mrc") →
       t.data = dpre ++ ("mrc", u) :: dpost →
       (∀ p ∈ dpre, p.1 ≠ "mrc") →
       getVolumeURIFromVolumeName env cache name
         = getURIFromUUID env cache u) := by
  refine ⟨fun hnil => ?_, fun hnomrc => ?_, ?_⟩
  · simp [getVolumeURIFromVolumeName, hnil]
  · cases hss : env.servicesByName name with
    | nil => simp [getVolumeURIFromVolumeName, hss]
    | cons t rest =>
      rw [hss] at hnomrc
      simp [getVolumeURIFromVolumeName, hss,
        findMrcUUID_eq_none (t :: rest) hnomrc]
  · intro pre t post dpre u dpost hss hpre hdata hdpre
    have hfind : findMrcUUID (env.servicesByName name) = some u := by
      rw [hss]
      exact findMrcUUID_first pre t post u hpre
        (by rw [hdata]; exact findMrcInData_first dpre u dpost hdpre)
    have hne : env.servicesByName name ≠ [] := by
      rw [hss]
      cases pre <;> simp
    unfold getVolumeURIFromVolumeName
    rw [if_neg (by simpa using hne), hfind]

/-- A closed instance of claim C8, the specification scenario: vol1 is
served by a service whose data lists an osd entry before the mrc entry for
srv1; resolution skips the non-mrc entry and answers exactly as resolving
srv1 does. -/
theorem C8_volume_resolution_first_mrc_witness :
    getVolumeURIFromVolumeName dirScenarioEnv emptyCache "vol1"
      = getURIFromUUID dirScenarioEnv emptyCache "srv1" :=
  (C8_volume_resolution_first_mrc dirScenarioEnv emptyCache "vol1").2.2
    [] ⟨[("osd", "srvX"), ("mrc", "srv1")]⟩ [] [("osd", "srvX")] "srv1" []
    (by decide) (by simp) (by decide) (by decide)

end Xtreemfs
